import Mathlib

set_option maxRecDepth 100000

/-!
Shallow embedding of the parser core of `src/DSC_Plotter.py`.

Conventions of the embedding:
* Python strings are modelled as `List Char`; string offsets are `Nat`
  positions into that list (Python `str` indexing is by character).
* Python exceptions (`IndexError` from list indexing, `ValueError` from
  `float`, the `assert` statement) are modelled with `Except String`;
  a raised exception is `Except.error` carrying the exception text.
* Python `float` is modelled exactly over `ℚ`: every token the program
  accepts is a plain decimal literal (optionally signed, optional
  fraction and exponent), whose value is an exact rational.  The
  `inf`/`nan`/underscore forms of Python `float` are not modelled; no
  input in this development uses them.
* Python `dict` is modelled as an insertion-ordered association list in
  which inserting an existing key overwrites its value in place.
* `re.finditer` over the single pattern `\n\[[\w\s]+\]\n` is modelled by
  a left-to-right scan that, at each position, matches `'\n'`, `'['`, a
  maximal nonempty run of word/space characters, `']'`, `'\n'`, and on
  success continues after the match (the character class cannot contain
  `']'`, so the greedy run admits no backtracking).  The word/space
  class is the ASCII reading of `[\w\s]`; every section title in this
  development is ASCII.
-/

deriving instance DecidableEq for Except

/-- Python whitespace characters (as used by `str.strip` and `float`). -/
def isPySpace (c : Char) : Bool :=
  c == ' ' || c == '\t' || c == '\n' || c == '\r' || c == '\x0b' || c == '\x0c'

/-- Python `str.strip()`: remove leading and trailing whitespace. -/
def pyStrip (s : List Char) : List Char :=
  ((s.dropWhile isPySpace).reverse.dropWhile isPySpace).reverse

/-- Python `str.lower()` (ASCII case folding; all inputs here are ASCII-cased). -/
def pyLower (s : List Char) : List Char := s.map Char.toLower

/-- The character map of `line.replace(',', '.')` at `src/DSC_Plotter.py:127`. -/
def commaToDot (c : Char) : Char := if c = ',' then '.' else c

/-- Python `str.split(sep)` for a one-character separator: keeps empty
pieces, always returns at least one piece. -/
def splitOnChar (c : Char) : List Char → List (List Char)
  | [] => [[]]
  | x :: xs =>
    let r := splitOnChar c xs
    if x = c then [] :: r
    else (x :: r.headD []) :: r.tail

/-- Python slicing `s[a:b]` for nonnegative bounds. -/
def pySlice (l : List Char) (a b : Nat) : List Char := (l.take b).drop a

/-- Python list indexing `l[i]` for a nonnegative index: raises
`IndexError` when out of range. -/
def pyGet (l : List α) (i : Nat) : Except String α :=
  match l[i]? with
  | some x => .ok x
  | none => .error "IndexError: list index out of range"

/-- Python substring test `needle in hay`. -/
def pyIn (needle : List Char) : List Char → Bool
  | [] => needle.isEmpty
  | c :: rest => needle.isPrefixOf (c :: rest) || pyIn needle rest

/-- Number of occurrences of a character in a text (used to state the
bracket-count claim). -/
def countChar (c : Char) (l : List Char) : Nat :=
  (l.filter (fun x => x == c)).length

/-- Whether an `Except` computation finished without raising. -/
def exceptOk : Except String α → Bool
  | .ok _ => true
  | .error _ => false

/-- Insertion into a Python `dict` modelled as an ordered association
list: an existing key keeps its position and gets the new value. -/
def dictInsert (d : List (List Char × β)) (k : List Char) (v : β) :
    List (List Char × β) :=
  if d.any (fun p => p.1 == k) then
    d.map (fun p => if p.1 == k then (k, v) else p)
  else d ++ [(k, v)]

/-- Join a list of tokens with a single separator character (used to
state properties of tokenised data lines). -/
def intercalateChar (c : Char) : List (List Char) → List Char
  | [] => []
  | [t] => t
  | t :: ts => t ++ c :: intercalateChar c ts

/-- Value of a digit string. -/
def digitsToNat (l : List Char) : Nat :=
  l.foldl (fun a c => a * 10 + (c.toNat - 48)) 0

/-- Mantissa part of a Python float literal: `digits`, `digits.digits?`
or `.digits`.  Returns the digit value together with the number of
fraction digits, so `12.34` gives `(1234, 2)`. -/
def pyMantissa (s : List Char) : Option (Nat × Nat) :=
  let ip := s.takeWhile Char.isDigit
  match s.drop ip.length with
  | [] => if ip.isEmpty then none else some (digitsToNat ip, 0)
  | '.' :: fr =>
    if fr.all Char.isDigit && !(ip.isEmpty && fr.isEmpty) then
      some (digitsToNat (ip ++ fr), fr.length)
    else none
  | _ => none

/-- The exact rational `n * 10 ^ (ex - scale)`, built from integer
arithmetic and `mkRat` alone (the `Rat` field operations are
`@[irreducible]` and would block kernel evaluation). -/
def decScaled (n : Nat) (scale : Nat) (ex : Int) : ℚ :=
  let e : Int := ex - (scale : Int)
  if 0 ≤ e then mkRat ((n : Int) * ((10 : Nat) ^ e.toNat : Nat)) 1
  else mkRat (n : Int) ((10 : Nat) ^ (-e).toNat)

/-- Exponent part of a Python float literal (text after `e`/`E`). -/
def pyExpPart (s : List Char) : Option Int :=
  match s with
  | '+' :: r => if r.isEmpty || !r.all Char.isDigit then none else some (digitsToNat r : Int)
  | '-' :: r => if r.isEmpty || !r.all Char.isDigit then none else some (-(digitsToNat r : Int))
  | r => if r.isEmpty || !r.all Char.isDigit then none else some (digitsToNat r : Int)

/-- Unsigned Python float literal: mantissa with optional exponent. -/
def pyFloatCore (s : List Char) : Option ℚ :=
  match s.findIdx? (fun c => c == 'e' || c == 'E') with
  | none => (pyMantissa s).map (fun m => decScaled m.1 m.2 0)
  | some i => do
    let m ← pyMantissa (s.take i)
    let e ← pyExpPart (s.drop (i + 1))
    pure (decScaled m.1 m.2 e)

/-- Python `float(tok)` on a string token: strips whitespace, optional
sign, exact decimal value; `none` models the raised `ValueError`. -/
def pyFloat (tok : List Char) : Option ℚ :=
  match pyStrip tok with
  | '+' :: r => pyFloatCore r
  | '-' :: r => (pyFloatCore r).map Neg.neg
  | r => pyFloatCore r

/-- `float` as the program calls it: a failing token raises `ValueError`. -/
def pyFloatE (tok : List Char) : Except String ℚ :=
  match pyFloat tok with
  | some q => .ok q
  | none => .error "ValueError: could not convert string to float"

/-- One step table of the parsed file: the dict built at
`src/DSC_Plotter.py:114-127` (keys `program`, `variables`, `units`, `num`). -/
structure StepData where
  program : List Char
  vars : List (List Char)
  units : List (List Char)
  num : List (List ℚ)
deriving DecidableEq, Repr

/-- The dict returned by `get_data`: `data['meta']` and `data['steps']`. -/
structure DSCData where
  meta : List (List Char × List (List Char × List Char))
  steps : List StepData
deriving DecidableEq, Repr

/-- ASCII reading of the regex character class `[\w\s]`. -/
def isWordSpace (c : Char) : Bool :=
  c.isAlphanum || c == '_' || c == ' ' || c == '\t' || c == '\n' || c == '\r' ||
    c == '\x0b' || c == '\x0c'

/-- Attempt to match the section pattern `\n\[[\w\s]+\]\n` at the head of
`s`; returns the match length on success.  The greedy class run is the
maximal `isWordSpace` run; since `']'` is not in the class, no shorter
run can satisfy the regex, so this is exactly the regex engine's
behaviour at one position. -/
def matchHeaderAt (s : List Char) : Option Nat :=
  match s with
  | c1 :: c2 :: rest =>
    if c1 = '\n' ∧ c2 = '[' then
      let run := rest.takeWhile isWordSpace
      if run.isEmpty then none
      else
        match rest.drop run.length with
        | d1 :: d2 :: _ =>
          if d1 = ']' ∧ d2 = '\n' then some (run.length + 4) else none
        | _ => none
    else none
  | _ => none

/-- Fuelled left-to-right scan of `re.finditer(section_rex, string)`:
each element is `(match.start(), match.end(), match.group())`.  Every
recursive call consumes at least one character, so fuel `s.length + 1`
never runs out. -/
def scanSectionsFuel : Nat → List Char → Nat → List (Nat × Nat × List Char)
  | 0, _, _ => []
  | fuel + 1, s, pos =>
    match matchHeaderAt s with
    | some n => (pos, pos + n, s.take n) :: scanSectionsFuel fuel (s.drop n) (pos + n)
    | none =>
      match s with
      | [] => []
      | _ :: cs => scanSectionsFuel fuel cs (pos + 1)

/-- All matches of the section pattern in `s`, with their offsets. -/
def scanSections (s : List Char) (pos : Nat) : List (Nat × Nat × List Char) :=
  scanSectionsFuel (s.length + 1) s pos

/-- `match.group()[2:-2]` at `src/DSC_Plotter.py:73`. -/
def sectionTitle (group : List Char) : List Char :=
  ((group.drop 2).dropLast).dropLast

/-- The literal `'\n[step]\n'` compared against `match.group()` at
`src/DSC_Plotter.py:75`. -/
def pyStepHeader : List Char := "\n[step]\n".toList

/-- The synthetic header `'\n[general]\n'` prepended at
`src/DSC_Plotter.py:90`. -/
def pyHeaderGeneral : List Char := "\n[general]\n".toList

/-- `find_section_indices` (`src/DSC_Plotter.py:59-83`): offsets, titles
and the exact-`[step]` count of every pattern match, guarded by the
`assert` on the three list lengths. -/
def find_section_indices (raw : List Char) :
    Except String (List Nat × List Nat × List (List Char) × Nat) :=
  let ms := scanSections raw 0
  let start_indices := ms.map (fun m => m.1)
  let end_indices := ms.map (fun m => m.2.1)
  let section_titles := ms.map (fun m => sectionTitle m.2.2)
  let num_steps := (ms.filter (fun m => m.2.2 == pyStepHeader)).length
  if start_indices.length = end_indices.length ∧
      end_indices.length = section_titles.length then
    .ok (start_indices, end_indices, section_titles, num_steps)
  else
    .error "AssertionError: The amount of opening and closing angular brackets is not identical."

/-- One line of a metadata section: `line.split('\t')[0]` and
`line.split('\t')[1]` (`src/DSC_Plotter.py:108`). -/
def metaPair (line : List Char) : Except String (List Char × List Char) := do
  let k ← pyGet (splitOnChar '\t' line) 0
  let v ← pyGet (splitOnChar '\t' line) 1
  pure (k, v)

/-- The dict comprehension over `section.split('\n')` at
`src/DSC_Plotter.py:108`. -/
def parseMetaSection (sec : List Char) :
    Except String (List (List Char × List Char)) :=
  (splitOnChar '\n' sec).foldlM
    (fun d line => do
      let kv ← metaPair line
      pure (dictInsert d kv.1 kv.2))
    []

/-- Token list of one candidate data line:
`line.replace(',', '.').split('\t')` with empty tokens dropped
(`src/DSC_Plotter.py:127`). -/
def rowTokens (line : List Char) : List (List Char) :=
  (splitOnChar '\t' (line.map commaToDot)).filter (fun t => !t.isEmpty)

/-- Numeric conversion of one candidate data line
(`src/DSC_Plotter.py:127`): every surviving token through `float`. -/
def rowFloats (line : List Char) : Except String (List ℚ) :=
  (rowTokens line).mapM pyFloatE

/-- The step-body slice `raw[sec_start:sec_end-1]`
(`src/DSC_Plotter.py:118`). -/
def stepSlice (raw : List Char) (a b : Nat) : List Char :=
  pySlice raw a (b - 1)

/-- `get_data` (`src/DSC_Plotter.py:53-131`) applied to the file text
(the file read itself is I/O and is not part of the parser). -/
def get_data (txt : List Char) : Except String DSCData := do
  let raw := pyHeaderGeneral ++ txt
  let (start_indices, end_indices, section_titles, num_steps) ←
    find_section_indices raw
  let meta ← (List.range (start_indices.length - num_steps)).foldlM
    (fun d i => do
      let section_title ← pyGet section_titles i
      let si ← pyGet start_indices i
      let sec_end ← pyGet start_indices (i + 1)
      let sec_start := si + section_title.length
      let sec := pySlice raw (sec_start + 4) sec_end
      let kvs ← parseMetaSection sec
      pure (dictInsert d section_title kvs))
    []
  let starts2 := start_indices ++ [raw.length]
  let steps ← (List.range section_titles.length).foldlM
    (fun st i => do
      let title ← pyGet section_titles i
      if pyLower (pyStrip title) = "step".toList then
        let sec_start ← pyGet end_indices i
        let sec_end ← pyGet starts2 (i + 1)
        let sec := stepSlice raw sec_start sec_end
        let lines := splitOnChar '\n' sec
        let program ← pyGet lines 0
        let vline ← pyGet lines 1
        let uline ← pyGet lines 2
        let num ← ((lines.drop 3).filter (fun l => !l.isEmpty)).mapM rowFloats
        pure (st ++ [StepData.mk program (splitOnChar '\t' vline)
          (splitOnChar '\t' uline) num])
      else
        pure st)
    []
  pure (DSCData.mk meta steps)

/-- Inner loop of `get_key_index` (`src/DSC_Plotter.py:151-153`),
carrying the running index. -/
def keyIndexLoop (al : List Char) : List (List Char) → Nat → Option Nat
  | [], _ => none
  | s :: rest, i =>
    if pyIn (pyLower (pyStrip al)) (pyLower (pyStrip s)) then some i
    else keyIndexLoop al rest (i + 1)

/-- `get_key_index` (`src/DSC_Plotter.py:146-154`): first index whose
entry contains the normalised alias; falling off the loop is Python's
implicit `None`, modelled as `none`. -/
def get_key_index (al : List Char) (steps : List (List Char)) : Option Nat :=
  keyIndexLoop al steps 0

/-- First-match-index specification, written directly from the spec's
words (the first entry whose normalised form contains the normalised
alias), for comparison with `get_key_index`. -/
def firstMatchIndex (al : List Char) : List (List Char) → Option Nat
  | [] => none
  | s :: rest =>
    if pyIn (pyLower (pyStrip al)) (pyLower (pyStrip s)) then some 0
    else (firstMatchIndex al rest).map (· + 1)

/-- The caller's use of a lookup result, `variables[t_ind]` at
`src/DSC_Plotter.py:195`: indexing a Python list with `None` raises
`TypeError`. -/
def variableAt (vars : List (List Char)) (ind : Option Nat) :
    Except String (List Char) :=
  match ind with
  | some i => pyGet vars i
  | none => .error "TypeError: list indices must be integers or slices, not NoneType"

/-- The row-shape filter of `plot_SDT` (`src/DSC_Plotter.py:185`):
`[tup for tup in num_data if len(tup) == len(variables)]`. -/
def filterRows (vars : List (List Char)) (num : List (List ℚ)) : List (List ℚ) :=
  num.filter (fun tup => tup.length == vars.length)

-- § Concrete inputs and their parse results, used by the claim theorems

/-- Input with a 3-column variables line, a 2-column units line and a
2-token data row. -/
def c1txt : List Char := "k\tv\n[step]\nP\nA\tB\tC\ns\tu\n1,0\t2,0\n".toList

/-- Parse result of `c1txt`. -/
def c1data : DSCData :=
  DSCData.mk [("general".toList, [("k".toList, "v".toList)])]
    [StepData.mk "P".toList ["A".toList, "B".toList, "C".toList]
      ["s".toList, "u".toList] [[1, 2]]]

/-- The end-to-end scenario input of the spec (claim C2). -/
def c2txt : List Char :=
  "Instrument\tX1\nOperator\tJane\n\n[step]\nRampMethod\nTime\tTemperature\tHeat Flow\ns\t°C\tmW\n0,0\t25,0\t0,01\n1,0\t26,0\t0,02\n".toList

/-- Input whose step section is last and whose text does not end in a
newline: the final data row is `1,5`. -/
def c3txt : List Char := "k\tv\n[step]\nP\nT\nu\n1,5".toList

/-- Parse result of `c3txt`: the row `1,5` came out as `1.0`. -/
def c3data : DSCData :=
  DSCData.mk [("general".toList, [("k".toList, "v".toList)])]
    [StepData.mk "P".toList ["T".toList] ["u".toList] [[1]]]

/-- Input containing no section headers at all. -/
def c4txt : List Char := "hello".toList

/-- Input with four `[` and one `]`. -/
def c7txt : List Char := "k\tv[[[\n[step]\nP\nA\nu\n1,0\n".toList

/-- Parse result of `c7txt`. -/
def c7data : DSCData :=
  DSCData.mk [("general".toList, [("k".toList, "v[[[".toList)])]
    [StepData.mk "P".toList ["A".toList] ["u".toList] [[1]]]

/-- Input with an interior empty token in a data row under three
declared columns. -/
def c10txt : List Char := "k\tv\n[step]\nP\nA\tB\tC\ns\tu\tw\n1,0\t\t2,0\n".toList

/-- Parse result of `c10txt`. -/
def c10data : DSCData :=
  DSCData.mk [("general".toList, [("k".toList, "v".toList)])]
    [StepData.mk "P".toList ["A".toList, "B".toList, "C".toList]
      ["s".toList, "u".toList, "w".toList] [[1, 2]]]

-- § Lemmas about the Python string primitives

theorem splitOnChar_ne_nil (c : Char) (l : List Char) : splitOnChar c l ≠ [] := by
  cases l with
  | nil => simp [splitOnChar]
  | cons x xs =>
    simp only [splitOnChar]
    split <;> simp

theorem splitOnChar_cons_of_ne (c x : Char) (xs : List Char) (h : x ≠ c) :
    splitOnChar c (x :: xs) =
      (x :: (splitOnChar c xs).headD []) :: (splitOnChar c xs).tail := by
  simp [splitOnChar, h]

theorem splitOnChar_cons_self (c : Char) (xs : List Char) :
    splitOnChar c (c :: xs) = [] :: splitOnChar c xs := by
  simp [splitOnChar]

theorem headD_splitOnChar (c : Char) (l : List Char) :
    (splitOnChar c l).headD [] = l.takeWhile (fun a => a != c) := by
  induction l with
  | nil => simp [splitOnChar]
  | cons x xs ih =>
    by_cases h : x = c
    · subst h
      rw [splitOnChar_cons_self]
      simp [List.takeWhile_cons]
    · rw [splitOnChar_cons_of_ne c x xs h, List.headD_cons, List.takeWhile_cons,
        if_pos (by simp [h]), ih]

theorem splitOnChar_append_of_sepfree (c : Char) (k l : List Char)
    (hk : ∀ a ∈ k, a ≠ c) :
    splitOnChar c (k ++ l) =
      (k ++ (splitOnChar c l).headD []) :: (splitOnChar c l).tail := by
  induction k with
  | nil =>
    simp only [List.nil_append]
    cases hr : splitOnChar c l with
    | nil => exact absurd hr (splitOnChar_ne_nil c l)
    | cons h t => simp
  | cons a k ih =>
    have ha : a ≠ c := hk a (List.mem_cons_self a k)
    rw [List.cons_append, splitOnChar_cons_of_ne c a (k ++ l) ha,
      ih (fun x hx => hk x (List.mem_cons_of_mem a hx))]
    simp

theorem splitOnChar_of_sepfree (c : Char) (t : List Char) (ht : ∀ a ∈ t, a ≠ c) :
    splitOnChar c t = [t] := by
  have := splitOnChar_append_of_sepfree c t [] ht
  simpa [splitOnChar] using this

theorem splitOnChar_intercalateChar (c : Char) (ts : List (List Char))
    (hts : ts ≠ []) (hfree : ∀ t ∈ ts, ∀ a ∈ t, a ≠ c) :
    splitOnChar c (intercalateChar c ts) = ts := by
  induction ts with
  | nil => exact absurd rfl hts
  | cons t ts ih =>
    cases ts with
    | nil =>
      simp only [intercalateChar]
      exact splitOnChar_of_sepfree c t (hfree t (List.mem_cons_self t []))
    | cons t2 ts2 =>
      have hstep : intercalateChar c (t :: t2 :: ts2) =
          t ++ c :: intercalateChar c (t2 :: ts2) := rfl
      rw [hstep, splitOnChar_append_of_sepfree c t _
        (hfree t (List.mem_cons_self t (t2 :: ts2))),
        splitOnChar_cons_self]
      simp only [List.headD_cons, List.tail_cons, List.append_nil]
      rw [ih (by simp) (fun u hu => hfree u (List.mem_cons_of_mem t hu))]

-- § Error propagation through mapM

theorem exceptOk_false_iff (z : Except String α) :
    exceptOk z = false ↔ ∃ e, z = .error e := by
  cases z <;> simp [exceptOk]

theorem mapM_exceptOk_false {α β : Type} (f : α → Except String β)
    (l : List α) (x : α) (hx : x ∈ l) (hf : exceptOk (f x) = false) :
    exceptOk (l.mapM f) = false := by
  induction l with
  | nil => cases hx
  | cons a l ih =>
    rw [List.mapM_cons]
    cases hfa : f a with
    | error e => rfl
    | ok b =>
      rcases List.mem_cons.mp hx with rfl | hx'
      · rw [hfa] at hf; simp [exceptOk] at hf
      · rcases (exceptOk_false_iff _).mp (ih hx') with ⟨e, he⟩
        rw [he]
        rfl

-- § Shape of scanned section headers

theorem matchHeaderAt_shape (s : List Char) (n : Nat) (h : matchHeaderAt s = some n) :
    ∃ t, t ≠ [] ∧ s.take n = '\n' :: '[' :: (t ++ [']', '\n']) := by
  cases s with
  | nil => simp [matchHeaderAt] at h
  | cons c1 s1 =>
  cases s1 with
  | nil => simp [matchHeaderAt] at h
  | cons c2 rest =>
  simp only [matchHeaderAt] at h
  split at h
  case isFalse => simp at h
  case isTrue h12 =>
  obtain ⟨rfl, rfl⟩ := h12
  set run := rest.takeWhile isWordSpace with hrunDef
  split at h
  case isTrue => simp at h
  case isFalse hrun =>
  split at h
  case h_2 => simp at h
  case h_1 d1 d2 tail hdrop =>
  split at h
  case isFalse => simp at h
  case isTrue hd =>
  obtain ⟨rfl, rfl⟩ := hd
  injection h with hn
  subst hn
  refine ⟨run, ?_, ?_⟩
  · intro hnil
    rw [hnil] at hrun
    simp at hrun
  · have hpre : rest.take run.length = run :=
      (List.prefix_iff_eq_take.mp (by rw [hrunDef]; exact List.takeWhile_prefix _)).symm
    have hrest : rest = run ++ (']' :: '\n' :: tail) := by
      conv_lhs => rw [← List.take_append_drop run.length rest]
      rw [hpre, hdrop]
    have htake2 : rest.take (run.length + 2) = run ++ [']', '\n'] := by
      conv_lhs => rw [hrest]
      rw [List.take_append_eq_append_take,
        List.take_of_length_le (by omega),
        show run.length + 2 - run.length = 2 by omega]
      rfl
    rw [show run.length + 4 = (run.length + 3) + 1 from rfl, List.take_succ_cons,
      show run.length + 3 = (run.length + 2) + 1 from rfl, List.take_succ_cons,
      htake2]

theorem scanSectionsFuel_shape (fuel : Nat) (s : List Char) (pos : Nat) :
    ∀ m ∈ scanSectionsFuel fuel s pos,
      ∃ t, t ≠ [] ∧ m.2.2 = '\n' :: '[' :: (t ++ [']', '\n']) := by
  induction fuel generalizing s pos with
  | zero => intro m hm; simp [scanSectionsFuel] at hm
  | succ fuel ih =>
    intro m hm
    cases hmh : matchHeaderAt s with
    | some n =>
      simp only [scanSectionsFuel, hmh, List.mem_cons] at hm
      rcases hm with rfl | hm'
      · obtain ⟨t, ht1, ht2⟩ := matchHeaderAt_shape s n hmh
        exact ⟨t, ht1, ht2⟩
      · exact ih _ _ m hm'
    | none =>
      cases s with
      | nil => simp [scanSectionsFuel, hmh] at hm
      | cons c cs =>
        simp only [scanSectionsFuel, hmh] at hm
        exact ih _ _ m hm

theorem sectionTitle_header (t : List Char) :
    sectionTitle ('\n' :: '[' :: (t ++ [']', '\n'])) = t := by
  show ((t ++ [']', '\n']).dropLast).dropLast = t
  rw [show (t ++ [']', '\n']) = (t ++ [']']) ++ ['\n'] by simp,
    List.dropLast_concat, List.dropLast_concat]

theorem header_eq_pyStepHeader_iff (t : List Char) :
    ('\n' :: '[' :: (t ++ [']', '\n'])) = pyStepHeader ↔ t = "step".toList := by
  constructor
  · intro h
    have h2 : '\n' :: '[' :: (t ++ [']', '\n']) =
        '\n' :: '[' :: ("step".toList ++ [']', '\n']) := by
      rw [h]; rfl
    injection h2 with _ h3
    injection h3 with _ h4
    exact (List.append_inj' h4 rfl).1
  · intro h
    subst h
    rfl

theorem count_steps_eq (ms : List (Nat × Nat × List Char))
    (hshape : ∀ m ∈ ms, ∃ t, t ≠ [] ∧ m.2.2 = '\n' :: '[' :: (t ++ [']', '\n'])) :
    (ms.filter (fun m => m.2.2 == pyStepHeader)).length
      = ((ms.map (fun m => sectionTitle m.2.2)).filter
          (fun t => t == "step".toList)).length := by
  induction ms with
  | nil => rfl
  | cons m ms ih =>
    obtain ⟨t, _htne, hm⟩ := hshape m (List.mem_cons_self m ms)
    have heq : (m.2.2 == pyStepHeader) = (sectionTitle m.2.2 == "step".toList) := by
      rw [hm, sectionTitle_header]
      by_cases hts : t = "step".toList
      · subst hts
        decide
      · have h1 : (('\n' :: '[' :: (t ++ [']', '\n'])) == pyStepHeader) = false :=
          beq_eq_false_iff_ne.mpr
            (fun hcontra => hts ((header_eq_pyStepHeader_iff t).mp hcontra))
        have h2 : (t == "step".toList) = false := beq_eq_false_iff_ne.mpr hts
        rw [h1, h2]
    have ih' := ih (fun m' hm' => hshape m' (List.mem_cons_of_mem m hm'))
    simp only [List.filter_cons, List.map_cons, heq]
    cases hc : (sectionTitle m.2.2 == "step".toList) <;> simp [ih']

-- § The step-body slice drops exactly the final character

theorem stepSlice_dropLast (raw : List Char) (a b : Nat) (_hb1 : 1 ≤ b)
    (hb2 : b ≤ raw.length) : stepSlice raw a b = (pySlice raw a b).dropLast := by
  rcases Nat.lt_or_ge a b with hab | hab
  · unfold stepSlice pySlice
    rw [List.dropLast_eq_take, List.length_drop, List.length_take,
      Nat.min_eq_left hb2, List.take_drop, List.take_take,
      show a + (b - a - 1) = b - 1 by omega,
      Nat.min_eq_left (show b - 1 ≤ b by omega)]
  · unfold stepSlice pySlice
    have h1 : (raw.take (b - 1)).drop a = [] :=
      List.drop_eq_nil_of_le (le_trans (List.length_take_le _ _) (by omega))
    have h2 : (raw.take b).drop a = [] :=
      List.drop_eq_nil_of_le (le_trans (List.length_take_le _ _) hab)
    rw [h1, h2]
    rfl

-- § get_key_index returns the first matching index, None otherwise

theorem keyIndexLoop_eq (al : List Char) (l : List (List Char)) (i : Nat) :
    keyIndexLoop al l i = (firstMatchIndex al l).map (· + i) := by
  induction l generalizing i with
  | nil => rfl
  | cons s rest ih =>
    simp only [keyIndexLoop, firstMatchIndex]
    by_cases h : pyIn (pyLower (pyStrip al)) (pyLower (pyStrip s)) = true
    · simp [h]
    · simp only [Bool.not_eq_true] at h
      rw [if_neg (by simp [h]), if_neg (by simp [h]), ih (i + 1)]
      cases firstMatchIndex al rest with
      | none => rfl
      | some k => simp; omega

theorem get_key_index_eq_firstMatchIndex (al : List Char) (l : List (List Char)) :
    get_key_index al l = firstMatchIndex al l := by
  unfold get_key_index
  rw [keyIndexLoop_eq]
  cases firstMatchIndex al l with
  | none => rfl
  | some k => simp

theorem firstMatchIndex_eq_none_iff (al : List Char) (l : List (List Char)) :
    firstMatchIndex al l = none ↔
      ∀ s ∈ l, pyIn (pyLower (pyStrip al)) (pyLower (pyStrip s)) = false := by
  induction l with
  | nil => simp [firstMatchIndex]
  | cons s rest ih =>
    simp only [firstMatchIndex]
    by_cases h : pyIn (pyLower (pyStrip al)) (pyLower (pyStrip s)) = true
    · simp [h]
    · simp only [Bool.not_eq_true] at h
      rw [if_neg (by simp [h])]
      simp [h, ih]

-- § Scanning an input with no real headers

theorem find_section_indices_single (raw : List Char)
    (h : scanSections raw 0 = [(0, 11, pyHeaderGeneral)]) :
    find_section_indices raw = .ok ([0], [11], ["general".toList], 0) := by
  unfold find_section_indices
  rw [h]
  rfl

-- § Data-line tokenisation of a token list

theorem map_intercalateChar (f : Char → Char) (c : Char) (hf : f c = c)
    (ts : List (List Char)) :
    (intercalateChar c ts).map f = intercalateChar c (ts.map (List.map f)) := by
  induction ts with
  | nil => rfl
  | cons t ts ih =>
    cases ts with
    | nil => rfl
    | cons t2 ts2 =>
      show (t ++ c :: intercalateChar c (t2 :: ts2)).map f = _
      rw [List.map_append, List.map_cons, hf, ih]
      rfl

theorem rowFloats_intercalate (ts : List (List Char))
    (hfree : ∀ t ∈ ts, ∀ a ∈ t, a ≠ '\t') :
    rowFloats (intercalateChar '\t' ts)
      = ((ts.map (List.map commaToDot)).filter (fun t => !t.isEmpty)).mapM pyFloatE := by
  cases ts with
  | nil => rfl
  | cons t ts2 =>
    have hfree' : ∀ u ∈ (t :: ts2).map (List.map commaToDot), ∀ a ∈ u, a ≠ '\t' := by
      intro u hu a ha
      obtain ⟨t0, ht0, rfl⟩ := List.mem_map.mp hu
      obtain ⟨x, hx, rfl⟩ := List.mem_map.mp ha
      have hxt := hfree t0 ht0 x hx
      unfold commaToDot
      split
      · decide
      · exact hxt
    unfold rowFloats rowTokens
    rw [map_intercalateChar commaToDot '\t' rfl,
      splitOnChar_intercalateChar '\t' _ (by simp) hfree']

-- § The metadata key/value split keeps only the second field

theorem metaPair_split (k rest : List Char) (hk : ∀ a ∈ k, a ≠ '\t') :
    metaPair (k ++ '\t' :: rest)
      = .ok (k, rest.takeWhile (fun a => a != '\t')) := by
  obtain ⟨h0, t0, hsp⟩ : ∃ h0 t0, splitOnChar '\t' rest = h0 :: t0 := by
    cases hsp : splitOnChar '\t' rest with
    | nil => exact absurd hsp (splitOnChar_ne_nil _ _)
    | cons a b => exact ⟨a, b, rfl⟩
  have hh0 : h0 = rest.takeWhile (fun a => a != '\t') := by
    have hd := headD_splitOnChar '\t' rest
    rw [hsp] at hd
    simpa using hd
  unfold metaPair
  rw [splitOnChar_append_of_sepfree '\t' k ('\t' :: rest) hk,
    splitOnChar_cons_self]
  simp only [List.headD_cons, List.tail_cons, List.append_nil]
  rw [hsp]
  subst hh0
  simp only [pyGet, List.getElem?_cons_zero, List.getElem?_cons_succ]
  rfl

-- § Claim theorems

/-- Claim C1 (corrected): `get_data` itself never relates `len(units)` to
`len(variables)` and keeps every non-empty data line in `step['num']`
whatever its token count; the shape filter is applied downstream by
`plot_SDT` (`src/DSC_Plotter.py:185`), and a row of a parsed step survives
that filter exactly when it lies in `num` and its length equals the
number of variables.  A shape mismatch never fails the parse. -/
theorem dsc_c1_amended (txt : List Char) (d : DSCData)
    (_h : get_data txt = .ok d) (s : StepData) (_hs : s ∈ d.steps)
    (row : List ℚ) :
    row ∈ filterRows s.vars s.num ↔ row ∈ s.num ∧ row.length = s.vars.length := by
  unfold filterRows
  rw [List.mem_filter]
  simp

/-- Witness for C1: the parse of `c1txt` succeeds and its single step
instantiates the filter characterisation. -/
theorem dsc_c1_amended_witness :
    [(1 : ℚ), 2] ∈ filterRows ["A".toList, "B".toList, "C".toList] [[(1 : ℚ), 2]] ↔
      [(1 : ℚ), 2] ∈ [[(1 : ℚ), 2]] ∧
        ([(1 : ℚ), 2] : List ℚ).length
          = (["A".toList, "B".toList, "C".toList] : List (List Char)).length :=
  dsc_c1_amended c1txt c1data (by decide)
    (StepData.mk "P".toList ["A".toList, "B".toList, "C".toList]
      ["s".toList, "u".toList] [[1, 2]]) (by decide) [1, 2]

/-- Claim C1 counterexample: `get_data` on `c1txt` returns a step with 2
units against 3 variables and keeps the 2-token row, refuting both the
claimed `len(units) == len(variables)` invariant and the claimed
row-shape filtering inside the parser. -/
theorem dsc_c1_counterexample :
    get_data c1txt = .ok c1data ∧
    c1data.steps.map (fun s => s.units.length) = [2] ∧
    c1data.steps.map (fun s => s.vars.length) = [3] ∧
    c1data.steps.map (fun s => s.num.map (fun r => r.length)) = [[2]] := by
  decide

/-- Claim C2 (corrected): on the spec's end-to-end input the parse does
not return the described DataModel; the blank line before `[step]`
leaves an empty final line in the sliced `general` body, and the
key/value split of that empty line raises `IndexError`. -/
theorem dsc_c2_amended :
    get_data c2txt = .error "IndexError: list index out of range" := by
  decide

/-- Claim C2 counterexample: the parse of the end-to-end input raises
instead of returning a DataModel. -/
theorem dsc_c2_counterexample : exceptOk (get_data c2txt) = false := by
  decide

/-- Claim C3 (corrected): the step-body slice `raw[sec_start:sec_end-1]`
removes exactly one character from the end of the inter-header text —
whatever that character is — not "one trailing newline".  When only one
newline separates the final data row from the next header (or the file
does not end in a newline), the removed character belongs to the final
data row. -/
theorem dsc_c3_amended (raw : List Char) (a b : Nat) (hb1 : 1 ≤ b)
    (hb2 : b ≤ raw.length) :
    stepSlice raw a b = (pySlice raw a b).dropLast :=
  stepSlice_dropLast raw a b hb1 hb2

/-- Witness for C3 at a concrete slice. -/
theorem dsc_c3_amended_witness :
    stepSlice "abc".toList 0 2 = (pySlice "abc".toList 0 2).dropLast :=
  dsc_c3_amended "abc".toList 0 2 (by decide) (by decide)

/-- Claim C3 counterexample: in `c3txt` the final data row is `1,5`, yet
the parsed step holds the row `[1.0]` — the slice removed the last
character of the row, changing its value (it would have been `[1.5]`). -/
theorem dsc_c3_counterexample :
    rowFloats "1,5".toList = .ok [mkRat 3 2] ∧
    get_data c3txt = .ok c3data ∧
    c3data.steps.map (fun s => s.num) = [[[1]]] ∧
    mkRat 3 2 ≠ (1 : ℚ) := by
  decide

/-- Claim C4 (corrected): when the scan of the injected text finds only
the synthetic `general` header, `get_data` raises `IndexError` instead
of returning a degenerate DataModel: the metadata loop runs for the
`general` section and reads `start_indices[i+1]`, which does not exist
because `len(raw)` is appended only after that loop. -/
theorem dsc_c4_amended (txt : List Char)
    (h : scanSections (pyHeaderGeneral ++ txt) 0 = [(0, 11, pyHeaderGeneral)]) :
    get_data txt = .error "IndexError: list index out of range" := by
  unfold get_data
  simp only [find_section_indices_single _ h]
  rfl

/-- Witness for C4: the headerless input `hello`. -/
theorem dsc_c4_amended_witness :
    get_data "hello".toList = .error "IndexError: list index out of range" :=
  dsc_c4_amended "hello".toList (by decide)

/-- Claim C4 counterexample: an input with no section headers does not
parse to a DataModel at all. -/
theorem dsc_c4_counterexample : exceptOk (get_data c4txt) = false := by
  decide

/-- Claim C5 (corrected): `line.split('\t')[1]` is the second
tab-separated field, i.e. only the text up to the next tab — not the
entire remainder of the line after the first tab. -/
theorem dsc_c5_amended (k rest : List Char) (hk : ∀ a ∈ k, a ≠ '\t') :
    metaPair (k ++ '\t' :: rest)
      = .ok (k, rest.takeWhile (fun a => a != '\t')) :=
  metaPair_split k rest hk

/-- Witness for C5 at the line `k\tv1\tv2`. -/
theorem dsc_c5_amended_witness :
    metaPair ("k".toList ++ '\t' :: "v1\tv2".toList)
      = .ok ("k".toList, ("v1\tv2".toList).takeWhile (fun a => a != '\t')) :=
  dsc_c5_amended "k".toList "v1\tv2".toList (by decide)

/-- Claim C5 counterexample: the line `k\tv1\tv2` yields the value `v1`,
not the whole remainder `v1\tv2`. -/
theorem dsc_c5_counterexample :
    parseMetaSection "k\tv1\tv2".toList = .ok [("k".toList, "v1".toList)] ∧
    "v1".toList ≠ "v1\tv2".toList := by
  decide

/-- Claim C6 (corrected): `num_steps` counts the headers whose full match
text is exactly `'\n[step]\n'`, i.e. whose title is exactly `step` —
case-sensitive and without whitespace trimming.  (Trim-and-lowercase
matching of titles happens only later, in the step-extraction loop of
`get_data`.) -/
theorem dsc_c6_amended (raw : List Char)
    (r : List Nat × List Nat × List (List Char) × Nat)
    (h : find_section_indices raw = .ok r) :
    r.2.2.2 = (r.2.2.1.filter (fun t => t == "step".toList)).length := by
  unfold find_section_indices at h
  rw [if_pos (by simp)] at h
  injection h with h'
  subst h'
  exact count_steps_eq (scanSections raw 0) (scanSectionsFuel_shape _ _ _)

/-- Witness for C6 on the input `\n[step]\n`. -/
theorem dsc_c6_amended_witness :
    (1 : Nat) = ((["step".toList] : List (List Char)).filter
      (fun t => t == "step".toList)).length :=
  dsc_c6_amended "\n[step]\n".toList ([0], [8], ["step".toList], 1) (by decide)

/-- Claim C6 counterexample: the header `[Step]` normalizes to `step`
but is not counted by the scanner: `num_steps` is 0, not 1. -/
theorem dsc_c6_counterexample :
    find_section_indices "\n[Step]\n".toList = .ok ([0], [8], ["Step".toList], 0) ∧
    pyLower (pyStrip "Step".toList) = "step".toList ∧
    (["Step".toList].filter
      (fun t => pyLower (pyStrip t) == "step".toList)).length = 1 ∧
    (0 : Nat) ≠ 1 := by
  decide

/-- Claim C7 (corrected): the scanner performs no bracket-count
validation at all.  Its `assert` compares the lengths of the three lists
appended to in lock-step inside one loop, a condition that always holds,
so `find_section_indices` never raises. -/
theorem dsc_c7_amended (raw : List Char) :
    exceptOk (find_section_indices raw) = true := by
  unfold find_section_indices
  rw [if_pos (by simp)]
  rfl

/-- Claim C7 counterexample: `c7txt` has four `[` and one `]`, yet the
parse returns a complete DataModel without raising. -/
theorem dsc_c7_counterexample :
    countChar '[' c7txt = 4 ∧ countChar ']' c7txt = 1 ∧
    get_data c7txt = .ok c7data := by
  decide

/-- Claim C8 (corrected): `get_key_index` returns the index of the first
entry whose trimmed lowercased form contains the trimmed lowercased
alias, exactly as the first-match specification; but when no entry
matches it falls off the loop and returns Python's implicit `None`
(modelled as `none`) — there is no distinct explicit not-found result. -/
theorem dsc_c8_amended (al : List Char) (steps : List (List Char)) :
    get_key_index al steps = firstMatchIndex al steps ∧
    (get_key_index al steps = none ↔
      ∀ s ∈ steps, pyIn (pyLower (pyStrip al)) (pyLower (pyStrip s)) = false) := by
  refine ⟨get_key_index_eq_firstMatchIndex al steps, ?_⟩
  rw [get_key_index_eq_firstMatchIndex]
  exact firstMatchIndex_eq_none_iff al steps

/-- Claim C8 counterexample: with no matching entry the lookup yields
`none`, and the caller's use `variables[t_ind]`
(`src/DSC_Plotter.py:195`) then raises `TypeError` — the silent `None`
the claim says is not produced. -/
theorem dsc_c8_counterexample :
    get_key_index "time".toList ["Pressure".toList] = none ∧
    variableAt ["Pressure".toList]
        (get_key_index "time".toList ["Pressure".toList])
      = .error "TypeError: list indices must be integers or slices, not NoneType" := by
  decide

/-- Claim C9 (confirmed): commas are replaced by periods before `float`
conversion — `12,34` and `12.34` convert to the same value 12.34, the
replacement is idempotent on data lines, and a token (necessarily
non-empty, empties having been dropped) for which `float` fails makes
the row conversion raise instead of being coerced. -/
theorem dsc_c9 :
    rowFloats "12,34".toList = .ok [mkRat 1234 100] ∧
    rowFloats "12.34".toList = .ok [mkRat 1234 100] ∧
    (∀ line : List Char, rowFloats (line.map commaToDot) = rowFloats line) ∧
    (∀ line tok, tok ∈ rowTokens line → pyFloat tok = none →
      exceptOk (rowFloats line) = false) := by
  refine ⟨by decide, by decide, ?_, ?_⟩
  · intro line
    have hmap : (line.map commaToDot).map commaToDot = line.map commaToDot := by
      rw [List.map_map]
      apply List.map_congr_left
      intro a _
      by_cases ha : a = ','
      · subst ha; decide
      · simp [Function.comp_apply, commaToDot, ha]
    unfold rowFloats rowTokens
    rw [hmap]
  · intro line tok htok hfl
    refine mapM_exceptOk_false pyFloatE (rowTokens line) tok htok ?_
    unfold pyFloatE
    rw [hfl]
    rfl

/-- Claim C10 (confirmed): every empty token of a data line — interior
ones included — is dropped before conversion: `1,0\t\t2,0` under three
declared columns parses to the two-element row `[1.0, 2.0]` which is
kept in `num`, and in general tokenising a joined token list converts
exactly its non-empty tokens, in order. -/
theorem dsc_c10 :
    get_data c10txt = .ok c10data ∧
    rowFloats "1,0\t\t2,0".toList = .ok [(1 : ℚ), 2] ∧
    (∀ ts : List (List Char), (∀ t ∈ ts, ∀ a ∈ t, a ≠ '\t') →
      rowFloats (intercalateChar '\t' ts)
        = ((ts.map (List.map commaToDot)).filter
            (fun t => !t.isEmpty)).mapM pyFloatE) :=
  ⟨by decide, by decide, rowFloats_intercalate⟩
